import Mathlib

/-!
Verification of the clisso repository (Go): the SSO broker/relay (`ssoproxy`),
the relay client and device-grant client (`ssoclient`), and their shared
Server-Sent-Events wire protocol.

Go strings on the SSE wire are modelled as `List Char`; higher-level values
(identifiers, tokens, URIs) as `String`.  Effectful collaborators (the random
source, `url.Parse`, the HTTP token exchange, `json.Unmarshal`, the IdP's
poll responses) are oracles passed as parameters, exactly reflecting the
branch structure of the Go code at each call site.
-/

/-- Character-list form of the Go format string prefix `"event: "` used by
`sendSSEEvent` (handler.go) and checked by `parseSSEEvent` (proxy_auth.go). -/
def eventFieldPre : List Char := "event: ".toList

/-- Character-list form of the Go format string prefix `"data: "`. -/
def dataFieldPre : List Char := "data: ".toList

/-- Returns `true` iff the character list contains two adjacent newline characters,
i.e. an occurrence of the SSE event separator `"\n\n"`. -/
def hasNN : List Char → Bool
  | [] => false
  | c :: rest => (c == '\n' && rest.head? == some '\n') || hasNN rest

/-- The split function installed on the `bufio.Scanner` in
`consumeSSEFromHTTPEventStream` (proxy_auth.go lines 71-87): it hands out the
data up to (excluding) each `"\n\n"`, and at EOF hands out the non-empty
remainder, or nothing when the remainder is empty.  `acc` is the (reversed)
buffer of characters consumed so far before the next separator. -/
def scanEvents (acc : List Char) : List Char → List (List Char)
  | [] => if acc.isEmpty then [] else [acc.reverse]
  | [c] => [(c :: acc).reverse]
  | c1 :: c2 :: rest =>
    if c1 = '\n' ∧ c2 = '\n' then
      acc.reverse :: scanEvents [] rest
    else
      scanEvents (c1 :: acc) (c2 :: rest)

/-- Splits an HTTP event-stream body into raw events, as the scanner loop in
`consumeSSEFromHTTPEventStream` does. -/
def splitEvents (body : List Char) : List (List Char) :=
  scanEvents [] body

/-- Models `strings.Split(s, "\n")` (Go): always returns one part more than the
number of newline characters; splitting the empty string yields `[[]]`. -/
def splitLinesAux (acc : List Char) : List Char → List (List Char)
  | [] => [acc.reverse]
  | c :: rest =>
    if c = '\n' then acc.reverse :: splitLinesAux [] rest
    else splitLinesAux (c :: acc) rest

/-- Models `strings.Split(rawEvent, "\n")` as used by `parseSSEEvent`. -/
def splitLines (s : List Char) : List (List Char) :=
  splitLinesAux [] s

/-- Models `strings.CutPrefix(s, p)` (Go): `some` of the remainder when `p` leads
`s`, `none` otherwise (the Go `valid` flag is `false`). -/
def cutPre : List Char → List Char → Option (List Char)
  | [], s => some s
  | _ :: _, [] => none
  | p :: ps, c :: cs => if p = c then cutPre ps cs else none

/-- The two lines of one wire SSE event before the trailing blank line:
`"event: <e>\ndata: <d>"`.  This is exactly what the scanner hands to
`parseSSEEvent` for a well-formed event. -/
def rawChunk (event data : List Char) : List Char :=
  (eventFieldPre ++ event) ++ '\n' :: (dataFieldPre ++ data)

section CodecLemmas

theorem hasNN_append_adj (xs ys : List Char) :
    hasNN (xs ++ '\n' :: '\n' :: ys) = true := by
  induction xs with
  | nil => simp [hasNN]
  | cons c cs ih => simp [hasNN, ih]

theorem hasNN_append_of_not_mem {s : List Char} (t : List Char)
    (h : '\n' ∉ s) : hasNN (s ++ t) = hasNN t := by
  induction s with
  | nil => simp
  | cons c cs ih =>
    simp only [List.mem_cons, not_or] at h
    have hc : (c == '\n') = false := by
      simp only [beq_eq_false_iff_ne, ne_eq]
      exact fun hh => h.1 hh.symm
    simp only [List.cons_append, hasNN, hc, Bool.false_and, Bool.false_or]
    exact ih h.2

theorem hasNN_cons_of_head {l : List Char} (h : l.head? ≠ some '\n') :
    hasNN ('\n' :: l) = hasNN l := by
  simp only [hasNN]
  have : (l.head? == some '\n') = false := by
    cases hl : l.head? <;> simp_all
  simp [this]

theorem scanEvents_two (acc : List Char) (c1 c2 : Char) (rest : List Char) :
    scanEvents acc (c1 :: c2 :: rest) =
      if c1 = '\n' ∧ c2 = '\n' then
        acc.reverse :: scanEvents [] rest
      else scanEvents (c1 :: acc) (c2 :: rest) := rfl

theorem scanEvents_chunk (chunk : List Char) : ∀ (acc rest : List Char),
    hasNN (acc.reverse ++ chunk ++ ['\n']) = false →
    scanEvents acc (chunk ++ '\n' :: '\n' :: rest) =
      (acc.reverse ++ chunk) :: scanEvents [] rest := by
  induction chunk with
  | nil =>
    intro acc rest _
    rw [List.nil_append, scanEvents_two, if_pos ⟨rfl, rfl⟩]
    simp
  | cons c cs ih =>
    intro acc rest h
    have hstep : scanEvents acc ((c :: cs) ++ '\n' :: '\n' :: rest)
        = scanEvents (c :: acc) (cs ++ '\n' :: '\n' :: rest) := by
      cases cs with
      | nil =>
        simp only [List.cons_append, List.nil_append]
        rw [scanEvents_two]
        have hc : ¬(c = '\n' ∧ '\n' = '\n') := by
          rintro ⟨rfl, -⟩
          rw [show acc.reverse ++ ['\n'] ++ ['\n'] = acc.reverse ++ '\n' :: '\n' :: [] by simp,
            hasNN_append_adj] at h
          exact Bool.true_eq_false.mp h
        rw [if_neg hc]
      | cons x cs' =>
        simp only [List.cons_append]
        rw [scanEvents_two]
        have hc : ¬(c = '\n' ∧ x = '\n') := by
          rintro ⟨rfl, rfl⟩
          rw [show acc.reverse ++ ('\n' :: '\n' :: cs') ++ ['\n']
                = acc.reverse ++ '\n' :: '\n' :: (cs' ++ ['\n']) by simp,
            hasNN_append_adj] at h
          exact Bool.true_eq_false.mp h
        rw [if_neg hc]
    rw [hstep]
    have hcond : hasNN ((c :: acc).reverse ++ cs ++ ['\n']) = false := by
      have heq : (c :: acc).reverse ++ cs ++ ['\n'] = acc.reverse ++ (c :: cs) ++ ['\n'] := by simp
      rw [heq]; exact h
    rw [ih (c :: acc) rest hcond]
    simp

theorem splitLinesAux_no_nl {s : List Char} : ∀ acc : List Char,
    '\n' ∉ s → splitLinesAux acc s = [acc.reverse ++ s] := by
  induction s with
  | nil => intro acc _; simp [splitLinesAux]
  | cons c cs ih =>
    intro acc h
    simp only [List.mem_cons, not_or] at h
    rw [splitLinesAux, if_neg (fun hc => h.1 hc.symm)]
    rw [ih (c :: acc) h.2]
    simp

theorem splitLinesAux_mid {s : List Char} : ∀ (acc t : List Char),
    '\n' ∉ s → splitLinesAux acc (s ++ '\n' :: t) =
      (acc.reverse ++ s) :: splitLinesAux [] t := by
  induction s with
  | nil => intro acc t _; simp [splitLinesAux]
  | cons c cs ih =>
    intro acc t h
    simp only [List.mem_cons, not_or] at h
    rw [List.cons_append, splitLinesAux, if_neg (fun hc => h.1 hc.symm)]
    rw [ih (c :: acc) t h.2]
    simp

theorem cutPre_append : ∀ p r : List Char, cutPre p (p ++ r) = some r := by
  intro p
  induction p with
  | nil => intro r; rfl
  | cons c cs ih => intro r; simp [cutPre, ih]

theorem cutPre_none_iff : ∀ p s : List Char,
    cutPre p s = none ↔ ¬ ∃ t, s = p ++ t := by
  intro p
  induction p with
  | nil =>
    intro s
    simp [cutPre]
  | cons c cs ih =>
    intro s
    cases s with
    | nil => simp [cutPre]
    | cons x xs =>
      by_cases hcx : c = x
      · subst hcx
        rw [show cutPre (c :: cs) (c :: xs) = cutPre cs xs by simp [cutPre]]
        rw [ih xs]
        constructor
        · rintro hne ⟨t, ht⟩
          simp only [List.cons_append, List.cons.injEq, true_and] at ht
          exact hne ⟨t, ht⟩
        · rintro hne ⟨t, ht⟩
          exact hne ⟨t, by simp [ht]⟩
      · rw [show cutPre (c :: cs) (x :: xs) = none by simp [cutPre, hcx]]
        refine iff_of_true rfl ?_
        rintro ⟨t, ht⟩
        simp only [List.cons_append, List.cons.injEq] at ht
        exact hcx ht.1.symm

end CodecLemmas

/-- The distinct failure cases of `parseSSEEvent` (ssoclient/proxy_auth.go
lines 109-123), one constructor per `errors.New` site:
`wrongFieldCount` = "event does not contain one or both fields 'event' and
'data' or has more fields", `badEventField` = "SSE event field 'event' must
start with 'event: '", `badDataField` = "SSE event field 'data' must start
with 'data: '". -/
inductive SSEParseErr
  | wrongFieldCount
  | badEventField
  | badDataField
deriving DecidableEq

/-- Models `parseSSEEvent` (ssoclient/proxy_auth.go): splits the raw event on
newlines, requires exactly two lines, and cuts the `"event: "` and
`"data: "` leaders. -/
def parseSSEEvent (raw : List Char) : Except SSEParseErr (List Char × List Char) :=
  match splitLines raw with
  | [l0, l1] =>
    match cutPre eventFieldPre l0 with
    | some ev =>
      match cutPre dataFieldPre l1 with
      | some d => Except.ok (ev, d)
      | none => Except.error SSEParseErr.badDataField
    | none => Except.error SSEParseErr.badEventField
  | _ => Except.error SSEParseErr.wrongFieldCount

theorem splitLines_rawChunk {e d : List Char} (he : '\n' ∉ e) (hd : '\n' ∉ d) :
    splitLines (rawChunk e d) = [eventFieldPre ++ e, dataFieldPre ++ d] := by
  have hev : '\n' ∉ eventFieldPre ++ e := by
    intro hmem
    rcases List.mem_append.mp hmem with hl | hr
    · revert hl; decide
    · exact he hr
  have hda : '\n' ∉ dataFieldPre ++ d := by
    intro hmem
    rcases List.mem_append.mp hmem with hl | hr
    · revert hl; decide
    · exact hd hr
  rw [rawChunk, splitLines, splitLinesAux_mid [] _ hev,
    splitLinesAux_no_nl [] hda]
  simp

theorem parseSSEEvent_rawChunk {e d : List Char} (he : '\n' ∉ e) (hd : '\n' ∉ d) :
    parseSSEEvent (rawChunk e d) = Except.ok (e, d) := by
  rw [parseSSEEvent, splitLines_rawChunk he hd]
  simp [cutPre_append]

namespace ssoproxy

/-- Models `ssoproxy.loginResult` (context.go lines 34-39): the terminal result
handed to the login handler.  `err = none` is a success, `err = some msg`
a failure carrying the error's message. -/
structure loginResult where
  accessToken : String
  refreshToken : String
  expiration : Int
  err : Option String
deriving DecidableEq

/-- The request-correlation table `Context.requests`.  Each pending
identifier maps to the list of results sent on its channel (the Go channel
is unbuffered and receives at most one value; the list records the sends
performed by `onLoginSuccess`/`onLoginError`). -/
abbrev ReqMap := List (String × List loginResult)

/-- Models `_, contains := ctx.requests[reqId]` — key membership. -/
def containsReq (m : ReqMap) (k : String) : Bool :=
  m.any (fun p => p.1 == k)

/-- Models `ctx.requests[reqId] = make(chan *loginResult)` — (re)binds the key to a
fresh, empty channel. -/
def registerReq (m : ReqMap) (k : String) : ReqMap :=
  m.filter (fun p => p.1 != k) ++ [(k, [])]

/-- Models `delete(ctx.requests, reqId)` — removes the key. -/
def removeReq (m : ReqMap) (k : String) : ReqMap :=
  m.filter (fun p => p.1 != k)

/-- Models `ctx.requests[reqId] <- r` — records a send on the key's channel, leaving
every other entry untouched. -/
def sendOn (m : ReqMap) (k : String) (r : loginResult) : ReqMap :=
  m.map (fun p => if p.1 == k then (p.1, p.2 ++ [r]) else p)

/-- How the `select` in `initiateLogin` (context.go lines 59-65) resolves:
either `onLoginSuccess`/`onLoginError` delivered a result on the request's
channel, or the `LoginTimeout` context fired first. -/
inductive LoginEvent
  | delivered (r : loginResult)
  | timeout
deriving DecidableEq

/-- The result the `select` hands to the handler: the delivered result, or
the synthetic timeout failure `loginResult{err: errors.New("user's login
session timed out")}`. -/
def outcomeOf : LoginEvent → loginResult
  | LoginEvent.delivered r => r
  | LoginEvent.timeout => ⟨"", "", 0, some "user's login session timed out"⟩

/-- What one call of `initiateLogin` leaves behind: the table after the
final `delete`, the output the handler produced, and the list of results
the handler was invoked with. -/
structure InitOutcome where
  finalRequests : ReqMap
  emitted : List (String × String)
  handlerCalls : List loginResult
deriving DecidableEq

/-- Models `Context.initiateLogin` (context.go lines 53-67): registers the request
id, blocks on the `select` until the channel delivers or the timeout fires
(`ev` is that resolution), invokes `handler` on the resulting `loginResult`,
and deletes the id from the table. -/
def initiateLogin (m : ReqMap) (reqId : String) (ev : LoginEvent)
    (handler : loginResult → List (String × String)) : InitOutcome :=
  let m1 := registerReq m reqId
  let res := outcomeOf ev
  ⟨removeReq m1 reqId, handler res, [res]⟩

/-- Models `Context.onLoginSuccess` (context.go lines 70-82): if the id is absent,
returns the error "user's session id does not exist in OIDC context" and
does nothing; otherwise sends the success result on the id's channel.
Result: (returned error, table afterwards). -/
def onLoginSuccess (m : ReqMap) (reqId accessToken refreshToken : String)
    (expiration : Int) : Option String × ReqMap :=
  if containsReq m reqId then
    (none, sendOn m reqId ⟨accessToken, refreshToken, expiration, none⟩)
  else
    (some "user's session id does not exist in OIDC context", m)

/-- Models `Context.onLoginError` (context.go lines 85-94): if the id is absent,
returns with no action; otherwise sends a failure result carrying the error
on the id's channel. -/
def onLoginError (m : ReqMap) (reqId : String) (errMsg : String) : ReqMap :=
  if containsReq m reqId then
    sendOn m reqId ⟨"", "", 0, some errMsg⟩
  else
    m

theorem containsReq_removeReq (m : ReqMap) (k : String) :
    containsReq (removeReq m k) k = false := by
  simp only [containsReq, removeReq, List.any_eq_false]
  intro p hp
  have hmem := List.of_mem_filter hp
  simp at hmem
  simp [hmem]

end ssoproxy

namespace ssoproxy

/-- Models `eventAuthURI = "auth-uri"` (handler.go line 29). -/
def eventAuthURI : String := "auth-uri"

/-- Models `eventLoggedIn = "logged-in"` (handler.go line 30). -/
def eventLoggedIn : String := "logged-in"

/-- Models `eventError = "error"` (handler.go line 31). -/
def eventError : String := "error"

/-- Models `reqIdLength = 8` (handler.go line 26). -/
def reqIdLength : Nat := 8

/-- A parsed `url.URL` as used by `OIDCLoginHandler`: everything before the
query string, plus the parsed query pairs.  Only the operations the handler
performs (`Query`, `Set`, `Encode`, `String`) are modelled; Go additionally
sorts keys and percent-escapes values in `Encode`, which is immaterial here
(the handler only ever adds the `state` key with a URL-safe hex value). -/
structure AuthURI where
  base : String
  query : List (String × String)
deriving DecidableEq

/-- Models `url.Values.Set(k, v)`: replaces all values bound to `k` by the single
value `v`. -/
def querySet (q : List (String × String)) (k v : String) : List (String × String) :=
  (q.filter (fun p => p.1 != k)) ++ [(k, v)]

/-- First value bound to the key, if any (`url.Values.Get` without the
empty-string default). -/
def queryLookup (q : List (String × String)) (k : String) : Option String :=
  (q.find? (fun p => p.1 == k)).map (fun p => p.2)

/-- Models `url.Values.Encode` restricted as described on `AuthURI`. -/
def joinQuery : List (String × String) → String
  | [] => ""
  | [(k, v)] => k ++ "=" ++ v
  | (k, v) :: rest => k ++ "=" ++ v ++ "&" ++ joinQuery rest

/-- Models `url.URL.String()` for a URL with a non-empty query. -/
def AuthURI.renderURI (u : AuthURI) : String :=
  u.base ++ "?" ++ joinQuery u.query

/-- Models `json.Marshal` of `tokensEvent` (handler.go lines 14-18, 76-80): field
order follows the struct; marshalling of this struct cannot fail in Go, so
it is total here.  Token strings are assumed JSON-safe (no escaping). -/
def tokensEventJSON (accessToken refreshToken : String) (expiration : Int) : String :=
  "\x7b\"access_token\":\"" ++ accessToken ++ "\",\"refresh_token\":\""
    ++ refreshToken ++ "\",\"expiration\":" ++ toString expiration ++ "\x7d"

/-- The handler closure passed to `initiateLogin` by `OIDCLoginHandler`
(handler.go lines 69-88): a failure result yields one `error` event with the
reason; a success result yields one `logged-in` event with the JSON payload. -/
def loginResultEvents (r : loginResult) : List (String × String) :=
  match r.err with
  | some e => [(eventError, "OIDC login failed, reason: " ++ e)]
  | none => [(eventLoggedIn, tokensEventJSON r.accessToken r.refreshToken r.expiration)]

/-- What one request to the begin-login endpoint produces: the SSE events
written to the response body in order, the identifiers registered in the
context, and the requests table afterwards. -/
structure LoginHandlerOutcome where
  events : List (String × String)
  registered : List String
  finalRequests : ReqMap
deriving DecidableEq

/-- Models `OIDCLoginHandler` (handler.go lines 42-90).  `reqIdGen` is the outcome
of `generateReqId()` (the random source may fail), `authURIRes` the outcome
of `url.Parse(ctx.config.AuthorizationURI)` (`none` = parse error), and `ev`
how the login wait resolves.  On either preliminary failure exactly one
`error` event is sent and nothing is registered; otherwise the `auth-uri`
event (with `state` set to the fresh id) is sent, the id registered, and the
wait's terminal event follows. -/
def OIDCLoginHandler (m : ReqMap) (reqIdGen : Except String String)
    (authURIRes : Option AuthURI) (ev : LoginEvent) : LoginHandlerOutcome :=
  match reqIdGen with
  | Except.error _ => ⟨[(eventError, "Failed to generate random request id")], [], m⟩
  | Except.ok reqId =>
    match authURIRes with
    | none => ⟨[(eventError, "Invalid authorization URI")], [], m⟩
    | some authURI =>
      let uri := AuthURI.renderURI ⟨authURI.base, querySet authURI.query "state" reqId⟩
      let init := initiateLogin m reqId ev loginResultEvents
      ⟨(eventAuthURI, uri) :: init.emitted, [reqId], init.finalRequests⟩

/-- Models `tokenResponse` (handler.go lines 20-24). -/
structure tokenResponse where
  refreshToken : String
  accessToken : String
  expiresIn : Int
deriving DecidableEq

/-- The response the redirect endpoint writes: a permanent redirect
(`http.Redirect` with `http.StatusPermanentRedirect` = 308), a plain error
body (`http.Error` with a message and status), or nothing at all (Go then
responds 200 with an empty body). -/
inductive RedirectResponse
  | redirect (uri : String) (status : Nat)
  | plainError (msg : String) (status : Nat)
  | emptyOk
deriving DecidableEq

/-- What one request to the redirect endpoint produces: the response, the
requests table afterwards, and whether `oidcGetTokens` (the token exchange
with the IdP) was attempted. -/
structure RedirectOutcome where
  response : RedirectResponse
  finalRequests : ReqMap
  exchangeAttempted : Bool
deriving DecidableEq

/-- Models `OIDCRedirectHandler` (handler.go lines 94-140).  `failedRedirectURI` /
`successRedirectURI` come from the `Context`, `query` is the request's URL
query, and `exchange` is the outcome of `oidcGetTokens` (`none` = exchange
failed), consulted only if validation passes.  The inner closure computes
(status, error); the outer part logs and renders or redirects. -/
def OIDCRedirectHandler (failedRedirectURI successRedirectURI : String)
    (m : ReqMap) (method : String) (query : List (String × String))
    (exchange : Option tokenResponse) : RedirectOutcome :=
  let inner : Nat × Option String × ReqMap × Bool :=
    if method ≠ "GET" then
      (405, some ("HTTP method " ++ method ++ " is not allowed"), m, false)
    else if (queryLookup query "state").isNone then
      (400, some "OIDC URL query parameter 'state' was expected, but is missing", m, false)
    else if (queryLookup query "code").isNone then
      (400, some "OIDC URL query parameter 'code' was expected, but is missing", m, false)
    else
      let reqId := (queryLookup query "state").getD ""
      match exchange with
      | none =>
        (500, some "failed to retrieve tokens from authorization code",
          onLoginError m reqId "failed to retrieve tokens from authorization code", true)
      | some t =>
        match onLoginSuccess m reqId t.accessToken t.refreshToken t.expiresIn with
        | (some _, m1) =>
          (400, some "received request id does not exist in context, user's login attempt probably timed out", m1, true)
        | (none, m1) => (200, none, m1, true)
  match inner with
  | (status, errMsg, m1, exchanged) =>
    let response :=
      if 400 ≤ status then
        if failedRedirectURI ≠ "" then RedirectResponse.redirect failedRedirectURI 308
        else if 500 ≤ status then
          RedirectResponse.plainError "An error was encountered while serving the request" status
        else RedirectResponse.plainError (errMsg.getD "") status
      else
        if successRedirectURI ≠ "" then RedirectResponse.redirect successRedirectURI 308
        else RedirectResponse.emptyOk
    ⟨response, m1, exchanged⟩

/-- The sixteen lowercase hexadecimal digits used by Go's
`hex.EncodeToString`. -/
def hexDigits : List Char := "0123456789abcdef".toList

/-- One hex digit character. -/
def hexDigit (n : Nat) : Char := hexDigits.getD n '0'

/-- Models `hex.EncodeToString` (Go encoding/hex): each byte becomes its high then
low nibble's digit. -/
def hexEncodeToString (bs : List (Fin 256)) : String :=
  String.mk (bs.flatMap (fun b => [hexDigit (b.val / 16), hexDigit (b.val % 16)]))

/-- Models `generateReqId` (handler.go lines 175-181) in the case where the random
source succeeds and fills `randBytes` (a slice of `reqIdLength` bytes): the
id is the hex encoding of those bytes.  The failure case is the
`Except.error` branch of the `reqIdGen` oracle of `OIDCLoginHandler`. -/
def generateReqId (randBytes : List (Fin 256)) : String :=
  hexEncodeToString randBytes

/-- Models `sendSSEEvent` (handler.go lines 168-172): writes
`"event: <event>\ndata: <data>\n\n"` to the response body. -/
def sendSSEEvent (event data : List Char) : List Char :=
  rawChunk event data ++ ['\n', '\n']

end ssoproxy

/-- The whole body written by a sequence of `sendSSEEvent` calls. -/
def encodeSSE (ps : List (List Char × List Char)) : List Char :=
  (ps.map (fun p => ssoproxy.sendSSEEvent p.1 p.2)).flatten

/-- The wire form of a list of (event, data) string pairs as the proxy
emits them. -/
def sseWire (ps : List (String × String)) : List Char :=
  encodeSSE (ps.map (fun p => (p.1.toList, p.2.toList)))

namespace ssoclient

/-- Models `eventAuthURI = "auth-uri"` (proxy_auth.go line 20). -/
def eventAuthURI : String := "auth-uri"

/-- Models `eventOIDCTokens = "oidc-tokens"` (proxy_auth.go line 21): the only
event name under which the client accepts a token payload. -/
def eventOIDCTokens : String := "oidc-tokens"

/-- Models `eventError = "error"` (proxy_auth.go line 22). -/
def eventError : String := "error"

/-- Models `proxyTokensEvent` (proxy_auth.go lines 14-18); its Go zero value is
`⟨"", "", 0⟩`. -/
structure proxyTokensEvent where
  accessToken : String
  refreshToken : String
  expiration : Int
deriving DecidableEq

/-- Models `LoginResult` (ssoclient): the value surfaced to the caller. -/
structure LoginResult where
  accessToken : String
  refreshToken : String
  expiration : Int
deriving DecidableEq

/-- The errors `consumeSSEFromHTTPEventStream` can return (proxy_auth.go
lines 88-105): a malformed raw event (joined with "received invalid login
event from proxy"), or an error from the per-event callback (joined with
"an error occurred during consuming a login event").  Reading the in-memory
body cannot fail, so the scanner-error branch is unreachable here. -/
inductive ConsumeErr (ε : Type)
  | invalidEvent (e : SSEParseErr)
  | handlerErr (e : ε)

/-- Models `consumeSSEFromHTTPEventStream` (proxy_auth.go lines 66-106) after the
scanner split: processes each raw event in order, stopping at the first
parse or callback error; a clean end of stream returns no error.  `σ` is
the state the callback closes over (the client's `tokenEvent` variable). -/
def consumeSSEFromHTTPEventStream {σ ε : Type}
    (onEventReceived : σ → List Char → List Char → Except ε σ) :
    List (List Char) → σ → σ × Option (ConsumeErr ε)
  | [], st => (st, none)
  | chunk :: rest, st =>
    match parseSSEEvent chunk with
    | Except.error e => (st, some (ConsumeErr.invalidEvent e))
    | Except.ok (ev, d) =>
      match onEventReceived st ev d with
      | Except.error e => (st, some (ConsumeErr.handlerErr e))
      | Except.ok st1 => consumeSSEFromHTTPEventStream onEventReceived rest st1

/-- The errors the event callback of `LoginWithOIDCProxy` can produce
(proxy_auth.go lines 42-55), one constructor per site:
`invalidTokenFormat` = "received access and refresh token in invalid
format", `receivedError d` = `fmt.Errorf("received error '%s'", d)`,
`unknownEvent e` = `fmt.Errorf("encountered unknown login event '%s'", e)`. -/
inductive ClientEventErr
  | invalidTokenFormat
  | receivedError (data : List Char)
  | unknownEvent (event : List Char)
deriving DecidableEq

/-- The event callback of `LoginWithOIDCProxy` (proxy_auth.go lines 42-55).
`parseTokens` is the `json.Unmarshal` oracle for the token payload
(`none` = unmarshal error).  On `auth-uri` the URI callback fires and the
state is unchanged; on `oidc-tokens` the payload is parsed into the state;
on `error` and on any other name the callback fails. -/
def clientOnEvent (parseTokens : List Char → Option proxyTokensEvent)
    (st : proxyTokensEvent) (event data : List Char) :
    Except ClientEventErr proxyTokensEvent :=
  if event = eventAuthURI.toList then Except.ok st
  else if event = eventOIDCTokens.toList then
    match parseTokens data with
    | some t => Except.ok t
    | none => Except.error ClientEventErr.invalidTokenFormat
  else if event = eventError.toList then
    Except.error (ClientEventErr.receivedError data)
  else
    Except.error (ClientEventErr.unknownEvent event)

/-- Models `LoginWithOIDCProxy` (proxy_auth.go lines 27-62) after a 200 response
whose body is `body`: consumes the event stream and returns the
`LoginResult` built from the final `tokenEvent` (its zero value if no
token event was accepted) together with the consumption error, exactly as
the Go function returns both values to the caller. -/
def LoginWithOIDCProxy (parseTokens : List Char → Option proxyTokensEvent)
    (body : List Char) : LoginResult × Option (ConsumeErr ClientEventErr) :=
  match consumeSSEFromHTTPEventStream (clientOnEvent parseTokens)
      (splitEvents body) ⟨"", "", 0⟩ with
  | (t, err) => (⟨t.accessToken, t.refreshToken, t.expiration⟩, err)

/-- Models `consumeSSEFromHTTPEventStream` with a callback that only records the
(event, data) pairs in order: the pure decoder of the event stream. -/
def decodeSSE (body : List Char) :
    List (List Char × List Char) × Option (ConsumeErr Unit) :=
  consumeSSEFromHTTPEventStream
    (fun st ev d => Except.ok (st ++ [(ev, d)])) (splitEvents body) []

/-- Models `authorizationPendingError` (utils.go line 52). -/
def authorizationPendingError : String := "authorization_pending"

/-- Models `slowDownError` (utils.go line 53). -/
def slowDownError : String := "slow_down"

/-- Models `accessDeniedError` (utils.go line 54). -/
def accessDeniedError : String := "access_denied"

/-- Models `expiredTokenError` (utils.go line 55). -/
def expiredTokenError : String := "expired_token"

/-- Models `tokenSuccessResponse` (utils.go lines 46-50). -/
structure tokenSuccessResponse where
  accessToken : String
  expiresIn : Int
  refreshToken : String
deriving DecidableEq

/-- One IdP answer to a poll of the /token endpoint, as seen after JSON
decoding: a 200 with a token body, or an error body carrying the OAuth
error code. Transport failures and malformed JSON abort the loop with an
error in Go and are orthogonal to the polled-retry logic modelled here. -/
inductive PollResp
  | ok (t : tokenSuccessResponse)
  | err (code : String)
deriving DecidableEq

/-- The result of dispatching one poll response inside the loop body of
`pollTokensEndpoint` (utils.go lines 151-173): either the loop returns
(`done`, with the Go return values, errors as their message strings), or it
continues with a possibly enlarged interval (`next`). -/
inductive PollOut
  | done (r : Except String tokenSuccessResponse)
  | next (newInterval : Int)

/-- The branch ladder of the loop body of `pollTokensEndpoint` (utils.go
lines 151-173) applied to one response. -/
def pollStep (resp : PollResp) (pollInterval : Int) : PollOut :=
  match resp with
  | PollResp.ok t => PollOut.done (Except.ok t)
  | PollResp.err code =>
    if code = slowDownError then PollOut.next (pollInterval + 5)
    else if code = accessDeniedError then
      PollOut.done (Except.error "can't poll /token endpoint, access was denied")
    else if code = expiredTokenError then
      PollOut.done (Except.error "authorization attempt expired")
    else if code ≠ authorizationPendingError then
      PollOut.done (Except.error ("received unknown error code " ++ code
        ++ " while polling for access and refresh token"))
    else PollOut.next pollInterval

/-- The `for timePassed <= maxPollTime` loop of `pollTokensEndpoint`
(utils.go lines 132-175), step-indexed by `fuel` because the Go loop need
not terminate for a non-positive interval: `none` means the loop is still
running after `fuel` iterations.  Each iteration sleeps, adds the current
interval to `timePassed`, polls (`responses i` is the i-th answer) and
dispatches; falling out of the loop returns the error
"authorization attempt expired". -/
def pollLoopF (responses : Nat → PollResp) :
    Nat → Nat → Int → Int → Int → Option (Except String tokenSuccessResponse)
  | 0, _, _, _, _ => none
  | fuel + 1, i, pollInterval, timePassed, maxPollTime =>
    if timePassed ≤ maxPollTime then
      match pollStep (responses i) pollInterval with
      | PollOut.done r => some r
      | PollOut.next newInterval =>
        pollLoopF responses fuel (i + 1) newInterval (timePassed + pollInterval) maxPollTime
    else
      some (Except.error "authorization attempt expired")

/-- Models `pollTokensEndpoint` (utils.go lines 125-176): the loop started with
`timePassed = 0` on the first response. -/
def pollTokensEndpoint (responses : Nat → PollResp) (fuel : Nat)
    (pollInterval maxPollTime : Int) : Option (Except String tokenSuccessResponse) :=
  pollLoopF responses fuel 0 pollInterval 0 maxPollTime

/-- The interval correction in `LoginWithDeviceAuth` (utils.go lines 78-81):
the RFC default of 5 seconds is substituted exactly when the IdP supplied
interval 0; every other value, including negative ones, is passed to
`pollTokensEndpoint` unchanged. -/
def effectiveInterval (interval : Int) : Int :=
  if interval = 0 then 5 else interval

/-- The polling phase of `LoginWithDeviceAuth` (utils.go lines 69-97): polls
with the corrected interval for up to `expiresIn` seconds. -/
def loginWithDeviceAuthPoll (responses : Nat → PollResp) (fuel : Nat)
    (interval expiresIn : Int) : Option (Except String tokenSuccessResponse) :=
  pollTokensEndpoint responses fuel (effectiveInterval interval) expiresIn

end ssoclient

section PollLemmas

open ssoclient

theorem pollLoopF_succ (responses : Nat → PollResp) (fuel i : Nat)
    (pollInterval timePassed maxPollTime : Int) :
    pollLoopF responses (fuel + 1) i pollInterval timePassed maxPollTime =
      if timePassed ≤ maxPollTime then
        match pollStep (responses i) pollInterval with
        | PollOut.done r => some r
        | PollOut.next newInterval =>
          pollLoopF responses fuel (i + 1) newInterval (timePassed + pollInterval) maxPollTime
      else some (Except.error "authorization attempt expired") := rfl

theorem pollStep_next_ge {r : PollResp} {pi n : Int}
    (h : pollStep r pi = PollOut.next n) : pi ≤ n := by
  cases r with
  | ok t => exact absurd h (by simp [pollStep])
  | err code =>
    simp only [pollStep] at h
    split_ifs at h <;> (injection h with h1 <;> omega)

theorem pollStep_pending (pi : Int) :
    pollStep (PollResp.err authorizationPendingError) pi = PollOut.next pi := by
  rw [pollStep]
  rw [if_neg (by decide), if_neg (by decide), if_neg (by decide),
    if_neg (by decide)]

end PollLemmas

/-- Claim C1: once `initiateLogin(reqId, handler)` returns — whether the
channel delivered a result or the login timeout elapsed — the handler has
been invoked exactly once, with exactly one terminal login result (the
delivered outcome, or the synthetic timeout failure), and `reqId` is absent
from the context's requests map. -/
theorem C1_initiateLogin_once_then_absent (m : ssoproxy.ReqMap)
    (reqId : String) (ev : ssoproxy.LoginEvent)
    (handler : ssoproxy.loginResult → List (String × String)) :
    (ssoproxy.initiateLogin m reqId ev handler).handlerCalls
        = [ssoproxy.outcomeOf ev] ∧
    (ssoproxy.initiateLogin m reqId ev handler).emitted
        = handler (ssoproxy.outcomeOf ev) ∧
    (∀ r, ssoproxy.outcomeOf (ssoproxy.LoginEvent.delivered r) = r) ∧
    ssoproxy.outcomeOf ssoproxy.LoginEvent.timeout
        = ⟨"", "", 0, some "user's login session timed out"⟩ ∧
    ssoproxy.containsReq
        (ssoproxy.initiateLogin m reqId ev handler).finalRequests reqId = false := by
  refine ⟨rfl, rfl, fun r => rfl, rfl, ?_⟩
  exact ssoproxy.containsReq_removeReq _ _

/-- Claim C2: for an identifier absent from the requests map,
`onLoginSuccess` returns the "user's session id does not exist" error and
`onLoginError` returns without action; neither call changes the requests
map or any other pending entry's channel. -/
theorem C2_phantom_delivery_rejected (m : ssoproxy.ReqMap)
    (reqId accessToken refreshToken : String) (expiration : Int)
    (errMsg : String) (h : ssoproxy.containsReq m reqId = false) :
    ssoproxy.onLoginSuccess m reqId accessToken refreshToken expiration
        = (some "user's session id does not exist in OIDC context", m) ∧
    ssoproxy.onLoginError m reqId errMsg = m := by
  constructor
  · simp [ssoproxy.onLoginSuccess, h]
  · simp [ssoproxy.onLoginError, h]

theorem C2_phantom_delivery_rejected_witness :
    ssoproxy.onLoginSuccess [("a", [])] "b" "at" "rt" 7
        = (some "user's session id does not exist in OIDC context", [("a", [])]) ∧
    ssoproxy.onLoginError [("a", [])] "b" "boom" = [("a", [])] :=
  C2_phantom_delivery_rejected [("a", [])] "b" "at" "rt" 7 "boom" (by decide)

/-- Claim C8: during device-grant polling, `slow_down` adds exactly 5
seconds to the interval and the loop continues; `authorization_pending`
continues with the interval unchanged; `access_denied` and `expired_token`
stop immediately with an error; any other code stops with an error naming
the code; accumulated time past `maxPollTime` yields the timeout error;
and an IdP interval of exactly 0 is replaced by the default 5 in
`LoginWithDeviceAuth`. -/
theorem C8_poll_error_semantics :
    (∀ pollInterval : Int,
      ssoclient.pollStep (ssoclient.PollResp.err ssoclient.slowDownError) pollInterval
        = ssoclient.PollOut.next (pollInterval + 5)) ∧
    (∀ pollInterval : Int,
      ssoclient.pollStep (ssoclient.PollResp.err ssoclient.authorizationPendingError) pollInterval
        = ssoclient.PollOut.next pollInterval) ∧
    (∀ pollInterval : Int,
      ssoclient.pollStep (ssoclient.PollResp.err ssoclient.accessDeniedError) pollInterval
        = ssoclient.PollOut.done
            (Except.error "can't poll /token endpoint, access was denied")) ∧
    (∀ pollInterval : Int,
      ssoclient.pollStep (ssoclient.PollResp.err ssoclient.expiredTokenError) pollInterval
        = ssoclient.PollOut.done (Except.error "authorization attempt expired")) ∧
    (∀ (code : String) (pollInterval : Int),
      code ≠ ssoclient.slowDownError → code ≠ ssoclient.accessDeniedError →
      code ≠ ssoclient.expiredTokenError → code ≠ ssoclient.authorizationPendingError →
      ssoclient.pollStep (ssoclient.PollResp.err code) pollInterval
        = ssoclient.PollOut.done (Except.error ("received unknown error code "
            ++ code ++ " while polling for access and refresh token"))) ∧
    (∀ (responses : Nat → ssoclient.PollResp) (fuel i : Nat)
        (pollInterval timePassed maxPollTime : Int),
      maxPollTime < timePassed →
      ssoclient.pollLoopF responses (fuel + 1) i pollInterval timePassed maxPollTime
        = some (Except.error "authorization attempt expired")) ∧
    (∀ (responses : Nat → ssoclient.PollResp) (fuel i : Nat)
        (pollInterval timePassed maxPollTime : Int),
      timePassed ≤ maxPollTime →
      responses i = ssoclient.PollResp.err ssoclient.slowDownError →
      ssoclient.pollLoopF responses (fuel + 1) i pollInterval timePassed maxPollTime
        = ssoclient.pollLoopF responses fuel (i + 1) (pollInterval + 5)
            (timePassed + pollInterval) maxPollTime) ∧
    (∀ (responses : Nat → ssoclient.PollResp) (fuel i : Nat)
        (pollInterval timePassed maxPollTime : Int),
      timePassed ≤ maxPollTime →
      responses i = ssoclient.PollResp.err ssoclient.authorizationPendingError →
      ssoclient.pollLoopF responses (fuel + 1) i pollInterval timePassed maxPollTime
        = ssoclient.pollLoopF responses fuel (i + 1) pollInterval
            (timePassed + pollInterval) maxPollTime) ∧
    ssoclient.effectiveInterval 0 = 5 := by
  refine ⟨?_, ?_, ?_, ?_, ?_, ?_, ?_, ?_, rfl⟩
  · intro pollInterval
    rw [ssoclient.pollStep, if_pos rfl]
  · exact pollStep_pending
  · intro pollInterval
    rw [ssoclient.pollStep, if_neg (by decide), if_pos rfl]
  · intro pollInterval
    rw [ssoclient.pollStep, if_neg (by decide), if_neg (by decide), if_pos rfl]
  · intro code pollInterval h1 h2 h3 h4
    rw [ssoclient.pollStep, if_neg h1, if_neg h2, if_neg h3, if_pos h4]
  · intro responses fuel i pollInterval timePassed maxPollTime hgt
    rw [pollLoopF_succ, if_neg (by omega)]
  · intro responses fuel i pollInterval timePassed maxPollTime hle hresp
    rw [pollLoopF_succ, if_pos hle, hresp, ssoclient.pollStep, if_pos rfl]
  · intro responses fuel i pollInterval timePassed maxPollTime hle hresp
    rw [pollLoopF_succ, if_pos hle, hresp, pollStep_pending]

theorem C8_poll_error_semantics_witness :
    ssoclient.pollStep (ssoclient.PollResp.err "bogus") 3
        = ssoclient.PollOut.done (Except.error ("received unknown error code "
            ++ "bogus" ++ " while polling for access and refresh token")) ∧
    ssoclient.pollLoopF (fun _ => ssoclient.PollResp.err "bogus") 1 0 5 10 9
        = some (Except.error "authorization attempt expired") :=
  ⟨C8_poll_error_semantics.2.2.2.2.1 "bogus" 3
      (by decide) (by decide) (by decide) (by decide),
   C8_poll_error_semantics.2.2.2.2.2.1 (fun _ => ssoclient.PollResp.err "bogus")
      0 0 5 10 9 (by decide)⟩

/-- Claim C9 (implicit): the poll loop terminates for every initial
interval at least 1 and every deadline, because the time counter strictly
increases each iteration (the interval never shrinks); the positivity
precondition is necessary — the default of 5 replaces only an IdP interval
of exactly 0 (any other value passes through `effectiveInterval`
unchanged), and a non-positive interval makes the loop run forever while
the IdP keeps answering `authorization_pending`. -/
theorem C9_poll_termination :
    (∀ (responses : Nat → ssoclient.PollResp) (fuel : Nat), ∀ (i : Nat)
        (pollInterval timePassed maxPollTime : Int),
      1 ≤ pollInterval → (maxPollTime - timePassed + 1).toNat + 1 ≤ fuel →
      ssoclient.pollLoopF responses fuel i pollInterval timePassed maxPollTime ≠ none) ∧
    (∀ (fuel i : Nat) (pollInterval timePassed maxPollTime : Int),
      pollInterval ≤ 0 → timePassed ≤ maxPollTime →
      ssoclient.pollLoopF (fun _ => ssoclient.PollResp.err ssoclient.authorizationPendingError)
        fuel i pollInterval timePassed maxPollTime = none) ∧
    (∀ x : Int, x ≠ 0 → ssoclient.effectiveInterval x = x) ∧
    ssoclient.effectiveInterval 0 = 5 := by
  refine ⟨?_, ?_, ?_, rfl⟩
  · intro responses fuel
    induction fuel with
    | zero => intro i pollInterval timePassed maxPollTime h1 h2; omega
    | succ f ih =>
      intro i pollInterval timePassed maxPollTime h1 h2
      rw [pollLoopF_succ]
      by_cases hg : timePassed ≤ maxPollTime
      · rw [if_pos hg]
        cases hstep : ssoclient.pollStep (responses i) pollInterval with
        | done r => simp
        | next n =>
          exact ih (i + 1) n (timePassed + pollInterval) maxPollTime
            (le_trans h1 (pollStep_next_ge hstep)) (by omega)
      · rw [if_neg hg]
        simp
  · intro fuel
    induction fuel with
    | zero => intro i pollInterval timePassed maxPollTime _ _; rfl
    | succ f ih =>
      intro i pollInterval timePassed maxPollTime hpi htp
      rw [pollLoopF_succ, if_pos htp]
      rw [pollStep_pending]
      exact ih (i + 1) pollInterval (timePassed + pollInterval) maxPollTime hpi (by omega)
  · intro x hx
    rw [ssoclient.effectiveInterval, if_neg hx]

theorem C9_poll_termination_witness :
    ssoclient.pollLoopF (fun _ => ssoclient.PollResp.ok ⟨"at", 60, "rt"⟩) 2 0 1 0 0 ≠ none ∧
    ssoclient.pollLoopF (fun _ => ssoclient.PollResp.err ssoclient.authorizationPendingError)
        7 0 (-1) 0 5 = none ∧
    ssoclient.effectiveInterval (-1) = -1 :=
  ⟨C9_poll_termination.1 (fun _ => ssoclient.PollResp.ok ⟨"at", 60, "rt"⟩) 2 0 1 0 0
      (by decide) (by decide),
   C9_poll_termination.2.1 7 0 (-1) 0 5 (by decide) (by decide),
   C9_poll_termination.2.2.1 (-1) (by decide)⟩

section HandlerLemmas

theorem queryLookup_querySet (q : List (String × String)) (k v : String) :
    ssoproxy.queryLookup (ssoproxy.querySet q k v) k = some v := by
  rw [ssoproxy.queryLookup, ssoproxy.querySet, List.find?_append]
  have h1 : (q.filter (fun p => p.1 != k)).find? (fun p => p.1 == k) = none := by
    rw [List.find?_eq_none]
    intro p hp
    have hmem := List.of_mem_filter hp
    simp at hmem
    simp [hmem]
  rw [h1]
  simp [List.find?]

theorem hexDigit_mem (n : Nat) : ssoproxy.hexDigit n ∈ ssoproxy.hexDigits := by
  rw [ssoproxy.hexDigit, List.getD]
  cases h : ssoproxy.hexDigits.get? n with
  | none => simp [h]; decide
  | some c =>
    simp [h]
    exact List.get?_mem h

theorem hexEncodeToString_length (bs : List (Fin 256)) :
    (ssoproxy.hexEncodeToString bs).length = 2 * bs.length := by
  induction bs with
  | nil => rfl
  | cons b bs ih =>
    have hstep : (ssoproxy.hexEncodeToString (b :: bs)).length
        = (ssoproxy.hexEncodeToString bs).length + 1 + 1 := rfl
    rw [hstep, ih, List.length_cons]
    omega

end HandlerLemmas

/-- Claim C10 (implicit): every identifier produced by a successful
`generateReqId` is a string of exactly 16 lowercase hexadecimal characters
(the hex encoding of 8 random bytes), and `OIDCLoginHandler` uses it
verbatim both as the `state` query parameter of the authorization URI and
as the correlation key registered in the context. -/
theorem C10_reqId_hex_and_verbatim (randBytes : List (Fin 256))
    (h : randBytes.length = ssoproxy.reqIdLength) :
    (ssoproxy.generateReqId randBytes).length = 16 ∧
    (∀ c ∈ (ssoproxy.generateReqId randBytes).toList, c ∈ ssoproxy.hexDigits) ∧
    (∀ (m : ssoproxy.ReqMap) (u : ssoproxy.AuthURI) (ev : ssoproxy.LoginEvent),
      (ssoproxy.OIDCLoginHandler m (Except.ok (ssoproxy.generateReqId randBytes))
          (some u) ev).registered = [ssoproxy.generateReqId randBytes] ∧
      (ssoproxy.OIDCLoginHandler m (Except.ok (ssoproxy.generateReqId randBytes))
          (some u) ev).events.head?
        = some (ssoproxy.eventAuthURI, ssoproxy.AuthURI.renderURI
            ⟨u.base, ssoproxy.querySet u.query "state" (ssoproxy.generateReqId randBytes)⟩) ∧
      ssoproxy.queryLookup
          (ssoproxy.querySet u.query "state" (ssoproxy.generateReqId randBytes)) "state"
        = some (ssoproxy.generateReqId randBytes)) := by
  refine ⟨?_, ?_, fun m u ev => ⟨rfl, rfl, queryLookup_querySet _ _ _⟩⟩
  · rw [ssoproxy.generateReqId, hexEncodeToString_length, h, ssoproxy.reqIdLength]
  · intro c hc
    have hc2 : c ∈ randBytes.flatMap (fun b =>
        [ssoproxy.hexDigit (b.val / 16), ssoproxy.hexDigit (b.val % 16)]) := hc
    rw [List.mem_flatMap] at hc2
    obtain ⟨b, -, hcb⟩ := hc2
    simp only [List.mem_cons, List.mem_singleton, List.not_mem_nil, or_false] at hcb
    rcases hcb with rfl | rfl
    · exact hexDigit_mem _
    · exact hexDigit_mem _

theorem C10_reqId_hex_and_verbatim_witness :
    (ssoproxy.generateReqId (List.replicate 8 (0 : Fin 256))).length = 16 :=
  (C10_reqId_hex_and_verbatim (List.replicate 8 (0 : Fin 256)) (by decide)).1

/-- Claim C3: for every begin-login request, when both request-id
generation and authorization-URI parsing succeed the body is exactly one
`auth-uri` event (carrying the authorization URI with `state` set to the
fresh identifier) followed by exactly one terminal event — `logged-in`
with the JSON token payload on a delivered success, `error` otherwise
(delivered failure or timeout) — and nothing after it; when either
preliminary step fails the body is exactly one `error` event, no
`auth-uri` event is emitted, and no identifier is registered. -/
theorem C3_login_stream_shape (m : ssoproxy.ReqMap) (reqId genErr : String)
    (p : Option ssoproxy.AuthURI) (u : ssoproxy.AuthURI) (ev : ssoproxy.LoginEvent) :
    ssoproxy.OIDCLoginHandler m (Except.error genErr) p ev
        = ⟨[(ssoproxy.eventError, "Failed to generate random request id")], [], m⟩ ∧
    ssoproxy.OIDCLoginHandler m (Except.ok reqId) none ev
        = ⟨[(ssoproxy.eventError, "Invalid authorization URI")], [], m⟩ ∧
    ssoproxy.OIDCLoginHandler m (Except.ok reqId) (some u) ev
        = ⟨(ssoproxy.eventAuthURI, ssoproxy.AuthURI.renderURI
              ⟨u.base, ssoproxy.querySet u.query "state" reqId⟩)
            :: ssoproxy.loginResultEvents (ssoproxy.outcomeOf ev), [reqId],
           ssoproxy.removeReq (ssoproxy.registerReq m reqId) reqId⟩ ∧
    ssoproxy.queryLookup (ssoproxy.querySet u.query "state" reqId) "state" = some reqId ∧
    (∀ a r e, ssoproxy.loginResultEvents ⟨a, r, e, none⟩
        = [(ssoproxy.eventLoggedIn, ssoproxy.tokensEventJSON a r e)]) ∧
    (∀ a r e msg, ssoproxy.loginResultEvents ⟨a, r, e, some msg⟩
        = [(ssoproxy.eventError, "OIDC login failed, reason: " ++ msg)]) ∧
    (∀ r, ssoproxy.outcomeOf (ssoproxy.LoginEvent.delivered r) = r) ∧
    ssoproxy.outcomeOf ssoproxy.LoginEvent.timeout
        = ⟨"", "", 0, some "user's login session timed out"⟩ :=
  ⟨rfl, rfl, rfl, queryLookup_querySet u.query "state" reqId,
   fun _ _ _ => rfl, fun _ _ _ _ => rfl, fun _ => rfl, rfl⟩

/-- Claim C6: the redirect endpoint's response is determined as follows —
a non-GET method, a missing `state` parameter, or a missing `code`
parameter (checked in that order) yields 405/400 with no token exchange
attempted and no delivery; a failed exchange delivers a failure outcome
best-effort and yields 500; a successful exchange whose delivery fails
(identifier unknown or expired) yields 400 with the table unchanged; a
delivered success yields 200; and whenever the failure/success redirect
URI for the outcome class is configured, the response is instead a
permanent redirect (308) to it, otherwise the raw status and message are
rendered. -/
theorem C6_redirect_endpoint (f s : String) (m : ssoproxy.ReqMap)
    (method : String) (query : List (String × String))
    (ex : Option ssoproxy.tokenResponse) (st : String) (t : ssoproxy.tokenResponse) :
    (method ≠ "GET" →
      ssoproxy.OIDCRedirectHandler f s m method query ex
        = ⟨(if f = "" then ssoproxy.RedirectResponse.plainError
              ("HTTP method " ++ method ++ " is not allowed") 405
            else ssoproxy.RedirectResponse.redirect f 308), m, false⟩) ∧
    (ssoproxy.queryLookup query "state" = none →
      ssoproxy.OIDCRedirectHandler f s m "GET" query ex
        = ⟨(if f = "" then ssoproxy.RedirectResponse.plainError
              "OIDC URL query parameter 'state' was expected, but is missing" 400
            else ssoproxy.RedirectResponse.redirect f 308), m, false⟩) ∧
    (ssoproxy.queryLookup query "state" = some st →
     ssoproxy.queryLookup query "code" = none →
      ssoproxy.OIDCRedirectHandler f s m "GET" query ex
        = ⟨(if f = "" then ssoproxy.RedirectResponse.plainError
              "OIDC URL query parameter 'code' was expected, but is missing" 400
            else ssoproxy.RedirectResponse.redirect f 308), m, false⟩) ∧
    (∀ cd, ssoproxy.queryLookup query "state" = some st →
     ssoproxy.queryLookup query "code" = some cd →
      ssoproxy.OIDCRedirectHandler f s m "GET" query none
        = ⟨(if f = "" then ssoproxy.RedirectResponse.plainError
              "An error was encountered while serving the request" 500
            else ssoproxy.RedirectResponse.redirect f 308),
           ssoproxy.onLoginError m st "failed to retrieve tokens from authorization code",
           true⟩) ∧
    (∀ cd, ssoproxy.queryLookup query "state" = some st →
     ssoproxy.queryLookup query "code" = some cd →
     ssoproxy.containsReq m st = false →
      ssoproxy.OIDCRedirectHandler f s m "GET" query (some t)
        = ⟨(if f = "" then ssoproxy.RedirectResponse.plainError
              "received request id does not exist in context, user's login attempt probably timed out" 400
            else ssoproxy.RedirectResponse.redirect f 308), m, true⟩) ∧
    (∀ cd, ssoproxy.queryLookup query "state" = some st →
     ssoproxy.queryLookup query "code" = some cd →
     ssoproxy.containsReq m st = true →
      ssoproxy.OIDCRedirectHandler f s m "GET" query (some t)
        = ⟨(if s = "" then ssoproxy.RedirectResponse.emptyOk
            else ssoproxy.RedirectResponse.redirect s 308),
           ssoproxy.sendOn m st ⟨t.accessToken, t.refreshToken, t.expiresIn, none⟩,
           true⟩) := by
  refine ⟨?_, ?_, ?_, ?_, ?_, ?_⟩
  · intro hm
    by_cases hf : f = "" <;>
      simp [ssoproxy.OIDCRedirectHandler, hm, hf]
  · intro hstate
    by_cases hf : f = "" <;>
      simp [ssoproxy.OIDCRedirectHandler, hstate, hf]
  · intro hstate hcode
    by_cases hf : f = "" <;>
      simp [ssoproxy.OIDCRedirectHandler, hstate, hcode, hf]
  · intro cd hstate hcode
    by_cases hf : f = "" <;>
      simp [ssoproxy.OIDCRedirectHandler, hstate, hcode, hf]
  · intro cd hstate hcode habsent
    by_cases hf : f = "" <;>
      simp [ssoproxy.OIDCRedirectHandler, ssoproxy.onLoginSuccess, hstate, hcode,
        habsent, hf]
  · intro cd hstate hcode hpresent
    by_cases hs : s = "" <;>
      simp [ssoproxy.OIDCRedirectHandler, ssoproxy.onLoginSuccess, hstate, hcode,
        hpresent, hs]

theorem C6_redirect_endpoint_witness :
    ssoproxy.OIDCRedirectHandler "" "" [] "POST" [] none
      = ⟨ssoproxy.RedirectResponse.plainError "HTTP method POST is not allowed" 405,
         [], false⟩ :=
  (C6_redirect_endpoint "" "" [] "POST" [] none "x" ⟨"rt", "at", 1⟩).1 (by decide)

section WireLemmas

theorem hasNN_rawChunk {e d : List Char} (he : '\n' ∉ e) (hd : '\n' ∉ d) :
    hasNN (rawChunk e d ++ ['\n']) = false := by
  have hev : '\n' ∉ eventFieldPre ++ e := by
    intro hmem
    rcases List.mem_append.mp hmem with hl | hr
    · revert hl; decide
    · exact he hr
  have hda : '\n' ∉ dataFieldPre ++ d := by
    intro hmem
    rcases List.mem_append.mp hmem with hl | hr
    · revert hl; decide
    · exact hd hr
  have hshape : rawChunk e d ++ ['\n']
      = (eventFieldPre ++ e) ++ '\n' :: ((dataFieldPre ++ d) ++ ['\n']) := by
    rw [rawChunk]; simp
  rw [hshape, hasNN_append_of_not_mem _ hev]
  have hhead : ((dataFieldPre ++ d) ++ ['\n']).head? ≠ some '\n' := by
    rw [show dataFieldPre ++ d = 'd' :: ("ata: ".toList ++ d) from rfl]
    simp
  rw [hasNN_cons_of_head hhead, hasNN_append_of_not_mem _ hda]
  rfl

theorem splitEvents_encodeSSE (ps : List (List Char × List Char))
    (h : ∀ p ∈ ps, '\n' ∉ p.1 ∧ '\n' ∉ p.2) :
    splitEvents (encodeSSE ps) = ps.map (fun p => rawChunk p.1 p.2) := by
  induction ps with
  | nil => rfl
  | cons p ps ih =>
    have hp := h p (List.mem_cons_self p ps)
    have hps : ∀ q ∈ ps, '\n' ∉ q.1 ∧ '\n' ∉ q.2 :=
      fun q hq => h q (List.mem_cons_of_mem p hq)
    have henc : encodeSSE (p :: ps)
        = rawChunk p.1 p.2 ++ '\n' :: '\n' :: encodeSSE ps := by
      simp [encodeSSE, ssoproxy.sendSSEEvent]
    rw [splitEvents, henc,
      scanEvents_chunk (rawChunk p.1 p.2) [] (encodeSSE ps)
        (by simpa using hasNN_rawChunk hp.1 hp.2)]
    rw [show scanEvents [] (encodeSSE ps) = splitEvents (encodeSSE ps) from rfl, ih hps]
    simp

theorem consume_collect (ps : List (List Char × List Char))
    (h : ∀ p ∈ ps, '\n' ∉ p.1 ∧ '\n' ∉ p.2) : ∀ acc : List (List Char × List Char),
    @ssoclient.consumeSSEFromHTTPEventStream (List (List Char × List Char)) Unit
        (fun st ev d => Except.ok (st ++ [(ev, d)]))
        (ps.map (fun p => rawChunk p.1 p.2)) acc = (acc ++ ps, none) := by
  induction ps with
  | nil => intro acc; simp [ssoclient.consumeSSEFromHTTPEventStream]
  | cons p ps ih =>
    intro acc
    have hp := h p (List.mem_cons_self p ps)
    have hps : ∀ q ∈ ps, '\n' ∉ q.1 ∧ '\n' ∉ q.2 :=
      fun q hq => h q (List.mem_cons_of_mem p hq)
    simp only [List.map_cons, ssoclient.consumeSSEFromHTTPEventStream,
      parseSSEEvent_rawChunk hp.1 hp.2]
    rw [ih hps (acc ++ [(p.1, p.2)])]
    simp

theorem splitEvents_sseWire (ps : List (String × String))
    (h : ∀ p ∈ ps, '\n' ∉ p.1.toList ∧ '\n' ∉ p.2.toList) :
    splitEvents (sseWire ps) = ps.map (fun p => rawChunk p.1.toList p.2.toList) := by
  rw [sseWire, splitEvents_encodeSSE]
  · rw [List.map_map]
    rfl
  · intro p hp
    rw [List.mem_map] at hp
    obtain ⟨q, hq, rfl⟩ := hp
    exact h q hq

theorem consume_client_authuri (pt : List Char → Option ssoclient.proxyTokensEvent)
    (pre : List (String × String))
    (h : ∀ p ∈ pre, p.1 = "auth-uri" ∧ '\n' ∉ p.2.toList) :
    ∀ (cs : List (List Char)) (st : ssoclient.proxyTokensEvent),
    ssoclient.consumeSSEFromHTTPEventStream (ssoclient.clientOnEvent pt)
        ((pre.map (fun p => rawChunk p.1.toList p.2.toList)) ++ cs) st
      = ssoclient.consumeSSEFromHTTPEventStream (ssoclient.clientOnEvent pt) cs st := by
  induction pre with
  | nil => intro cs st; rw [List.map_nil, List.nil_append]
  | cons p pre ih =>
    intro cs st
    have hp := h p (List.mem_cons_self p pre)
    have hpre : ∀ q ∈ pre, q.1 = "auth-uri" ∧ '\n' ∉ q.2.toList :=
      fun q hq => h q (List.mem_cons_of_mem p hq)
    have hnl1 : '\n' ∉ p.1.toList := by rw [hp.1]; decide
    have hcl : ssoclient.clientOnEvent pt st p.1.toList p.2.toList = Except.ok st := by
      rw [hp.1]
      simp [ssoclient.clientOnEvent, ssoclient.eventAuthURI]
    simp only [List.map_cons, List.cons_append, ssoclient.consumeSSEFromHTTPEventStream,
      parseSSEEvent_rawChunk hnl1 hp.2, hcl]
    exact ih hpre cs st

theorem consume_client_error_event (pt : List Char → Option ssoclient.proxyTokensEvent)
    (d : List Char) (hd : '\n' ∉ d) (cs : List (List Char))
    (st : ssoclient.proxyTokensEvent) :
    ssoclient.consumeSSEFromHTTPEventStream (ssoclient.clientOnEvent pt)
        (rawChunk "error".toList d :: cs) st
      = (st, some (ssoclient.ConsumeErr.handlerErr
          (ssoclient.ClientEventErr.receivedError d))) := by
  have hcl : ssoclient.clientOnEvent pt st "error".toList d
      = Except.error (ssoclient.ClientEventErr.receivedError d) := by
    simp only [ssoclient.clientOnEvent]
    rw [if_neg (by decide), if_neg (by decide), if_pos (by decide)]
  simp only [ssoclient.consumeSSEFromHTTPEventStream,
    @parseSSEEvent_rawChunk "error".toList d (by decide) hd, hcl]

theorem consume_client_unknown_event (pt : List Char → Option ssoclient.proxyTokensEvent)
    (u d : List Char) (hu : '\n' ∉ u) (hd : '\n' ∉ d)
    (h1 : u ≠ ssoclient.eventAuthURI.toList) (h2 : u ≠ ssoclient.eventOIDCTokens.toList)
    (h3 : u ≠ ssoclient.eventError.toList) (cs : List (List Char))
    (st : ssoclient.proxyTokensEvent) :
    ssoclient.consumeSSEFromHTTPEventStream (ssoclient.clientOnEvent pt)
        (rawChunk u d :: cs) st
      = (st, some (ssoclient.ConsumeErr.handlerErr
          (ssoclient.ClientEventErr.unknownEvent u))) := by
  have hcl : ssoclient.clientOnEvent pt st u d
      = Except.error (ssoclient.ClientEventErr.unknownEvent u) := by
    simp only [ssoclient.clientOnEvent]
    rw [if_neg h1, if_neg h2, if_neg h3]
  simp only [ssoclient.consumeSSEFromHTTPEventStream,
    parseSSEEvent_rawChunk hu hd, hcl]

theorem parseSSEEvent_eq (raw l0 l1 : List Char) (hs : splitLines raw = [l0, l1]) :
    parseSSEEvent raw
      = match cutPre eventFieldPre l0 with
        | some ev =>
          match cutPre dataFieldPre l1 with
          | some d => Except.ok (ev, d)
          | none => Except.error SSEParseErr.badDataField
        | none => Except.error SSEParseErr.badEventField := by
  unfold parseSSEEvent
  rw [hs]

theorem LoginWithOIDCProxy_snd (pt : List Char → Option ssoclient.proxyTokensEvent)
    (body : List Char) :
    (ssoclient.LoginWithOIDCProxy pt body).2
      = (ssoclient.consumeSSEFromHTTPEventStream (ssoclient.clientOnEvent pt)
          (splitEvents body) ⟨"", "", 0⟩).2 := by
  unfold ssoclient.LoginWithOIDCProxy
  cases hc : ssoclient.consumeSSEFromHTTPEventStream (ssoclient.clientOnEvent pt)
      (splitEvents body) ⟨"", "", 0⟩ with
  | mk t err => rfl

end WireLemmas

/-- Claim C7 counterexample: the claim constrains only the data strings to
be newline-free, but an event NAME containing a newline also breaks the
framing — encoding the single pair ("a\nb", "") (data newline-free) and
decoding the stream yields a parse error, not the original sequence. -/
theorem C7_roundtrip_counterexample :
    ssoclient.decodeSSE (encodeSSE [(['a', '\n', 'b'], [])])
      ≠ ([(['a', '\n', 'b'], [])], none) := by
  intro hcontra
  have heval : ssoclient.decodeSSE (encodeSSE [(['a', '\n', 'b'], [])])
      = ([], some (ssoclient.ConsumeErr.invalidEvent SSEParseErr.wrongFieldCount)) := rfl
  rw [heval] at hcontra
  exact Option.noConfusion (congrArg Prod.snd hcontra)

/-- Claim C7 (amended): for any finite sequence of (event, data) pairs in
which neither the event name nor the data contains a newline, encoding each
pair with `sendSSEEvent` and decoding the concatenated stream reproduces
the sequence exactly; and any raw event with a line count other than two,
or whose lines lack the exact "event: " / "data: " leaders, is rejected
with a parse error. -/
theorem C7_codec_roundtrip :
    (∀ ps : List (List Char × List Char),
      (∀ p ∈ ps, '\n' ∉ p.1 ∧ '\n' ∉ p.2) →
      ssoclient.decodeSSE (encodeSSE ps) = (ps, none)) ∧
    (∀ raw : List Char, (splitLines raw).length ≠ 2 →
      parseSSEEvent raw = Except.error SSEParseErr.wrongFieldCount) ∧
    (∀ (raw l0 l1 : List Char), splitLines raw = [l0, l1] →
      cutPre eventFieldPre l0 = none →
      parseSSEEvent raw = Except.error SSEParseErr.badEventField) ∧
    (∀ (raw l0 l1 ev : List Char), splitLines raw = [l0, l1] →
      cutPre eventFieldPre l0 = some ev → cutPre dataFieldPre l1 = none →
      parseSSEEvent raw = Except.error SSEParseErr.badDataField) ∧
    (∀ p s1 : List Char, cutPre p s1 = none ↔ ¬ ∃ t, s1 = p ++ t) := by
  refine ⟨?_, ?_, ?_, ?_, cutPre_none_iff⟩
  · intro ps h
    rw [ssoclient.decodeSSE, splitEvents_encodeSSE ps h, consume_collect ps h []]
    simp
  · intro raw h
    unfold parseSSEEvent
    cases hs : splitLines raw with
    | nil => rfl
    | cons l0 t =>
      cases t with
      | nil => rfl
      | cons l1 t2 =>
        cases t2 with
        | nil =>
          exfalso
          rw [hs] at h
          simp at h
        | cons l2 t3 => rfl
  · intro raw l0 l1 hs hcut
    rw [parseSSEEvent_eq raw l0 l1 hs, hcut]
  · intro raw l0 l1 ev hs hcutEv hcutData
    rw [parseSSEEvent_eq raw l0 l1 hs, hcutEv, hcutData]

theorem C7_codec_roundtrip_witness :
    ssoclient.decodeSSE (encodeSSE [("auth-uri".toList, "http://x".toList)])
      = ([("auth-uri".toList, "http://x".toList)], none) :=
  C7_codec_roundtrip.1 [("auth-uri".toList, "http://x".toList)] (by decide)

/-- Claim C4 (code bug): the broker emits the token payload under the
event name `logged-in` (`ssoproxy.eventLoggedIn`) but the client accepts a
token payload only under the name `oidc-tokens`
(`ssoclient.eventOIDCTokens`); feeding the broker's success stream for
tokens ("at", "rt", 600) to `LoginWithOIDCProxy` therefore produces an
"encountered unknown login event 'logged-in'" error instead of the
round-tripped LoginResult the claim (and the repository's own client test,
which streams `logged-in` and asserts success) expects. -/
theorem C4_logged_in_rejected_by_client :
    (ssoproxy.OIDCLoginHandler [] (Except.ok "abcd")
        (some ⟨"http://idp/auth", []⟩)
        (ssoproxy.LoginEvent.delivered ⟨"at", "rt", 600, none⟩)).events
      = [(ssoproxy.eventAuthURI, "http://idp/auth?state=abcd"),
         (ssoproxy.eventLoggedIn, ssoproxy.tokensEventJSON "at" "rt" 600)] ∧
    (ssoclient.LoginWithOIDCProxy (fun _ => none)
        (sseWire (ssoproxy.OIDCLoginHandler [] (Except.ok "abcd")
            (some ⟨"http://idp/auth", []⟩)
            (ssoproxy.LoginEvent.delivered ⟨"at", "rt", 600, none⟩)).events)).2
      = some (ssoclient.ConsumeErr.handlerErr
          (ssoclient.ClientEventErr.unknownEvent "logged-in".toList)) :=
  ⟨rfl, rfl⟩

/-- Claim C5 counterexample: a stream that ends before any terminal event
(here: a single `auth-uri` event, then EOF) makes `LoginWithOIDCProxy`
return a NIL error, contradicting the claim that every premature end of
stream yields a non-nil error. -/
theorem C5_premature_end_counterexample :
    (ssoclient.LoginWithOIDCProxy (fun _ => none)
        (sseWire [("auth-uri", "http://idp/auth?state=abcd")])).2 = none := rfl

/-- Claim C5 (amended): `LoginWithOIDCProxy` returns a non-nil error when
the stream carries an `error` event (the error holds the carried reason)
and when it carries an event with an unrecognized name; but when the
stream ends before a terminal event has been received, it returns a nil
error together with the zero-value token result — no failure is surfaced
to the caller in that case. -/
theorem C5_client_error_cases (pt : List Char → Option ssoclient.proxyTokensEvent)
    (pre rest : List (String × String)) (d u : String)
    (hpre : ∀ p ∈ pre, p.1 = "auth-uri" ∧ '\n' ∉ p.2.toList)
    (hrest : ∀ p ∈ rest, '\n' ∉ p.1.toList ∧ '\n' ∉ p.2.toList)
    (hd : '\n' ∉ d.toList) (hu : '\n' ∉ u.toList)
    (hu1 : u ≠ "auth-uri") (hu2 : u ≠ "oidc-tokens") (hu3 : u ≠ "error") :
    (ssoclient.LoginWithOIDCProxy pt (sseWire (pre ++ ("error", d) :: rest))).2
        = some (ssoclient.ConsumeErr.handlerErr
            (ssoclient.ClientEventErr.receivedError d.toList)) ∧
    (ssoclient.LoginWithOIDCProxy pt (sseWire (pre ++ (u, d) :: rest))).2
        = some (ssoclient.ConsumeErr.handlerErr
            (ssoclient.ClientEventErr.unknownEvent u.toList)) ∧
    ssoclient.LoginWithOIDCProxy pt (sseWire pre) = (⟨"", "", 0⟩, none) := by
  have hpre1 : ∀ p ∈ pre, '\n' ∉ p.1.toList ∧ '\n' ∉ p.2.toList := by
    intro p hp
    refine ⟨?_, (hpre p hp).2⟩
    rw [(hpre p hp).1]
    decide
  refine ⟨?_, ?_, ?_⟩
  · have hall : ∀ p ∈ pre ++ ("error", d) :: rest,
        '\n' ∉ p.1.toList ∧ '\n' ∉ p.2.toList := by
      intro p hp
      rcases List.mem_append.mp hp with hl | hr
      · exact hpre1 p hl
      · rcases List.mem_cons.mp hr with rfl | hm
        · refine ⟨?_, hd⟩
          show '\n' ∉ ("error" : String).toList
          decide
        · exact hrest p hm
    have hsplit : (pre ++ ("error", d) :: rest).map
          (fun p => rawChunk p.1.toList p.2.toList)
        = pre.map (fun p => rawChunk p.1.toList p.2.toList)
          ++ rawChunk "error".toList d.toList
            :: rest.map (fun p => rawChunk p.1.toList p.2.toList) := by
      simp
    rw [LoginWithOIDCProxy_snd, splitEvents_sseWire _ hall, hsplit,
      consume_client_authuri pt pre hpre,
      consume_client_error_event pt d.toList hd]
  · have hall : ∀ p ∈ pre ++ (u, d) :: rest,
        '\n' ∉ p.1.toList ∧ '\n' ∉ p.2.toList := by
      intro p hp
      rcases List.mem_append.mp hp with hl | hr
      · exact hpre1 p hl
      · rcases List.mem_cons.mp hr with rfl | hm
        · exact ⟨hu, hd⟩
        · exact hrest p hm
    have hsplit : (pre ++ (u, d) :: rest).map
          (fun p => rawChunk p.1.toList p.2.toList)
        = pre.map (fun p => rawChunk p.1.toList p.2.toList)
          ++ rawChunk u.toList d.toList
            :: rest.map (fun p => rawChunk p.1.toList p.2.toList) := by
      simp
    have h1 : u.toList ≠ ssoclient.eventAuthURI.toList :=
      fun hh => hu1 (String.ext hh)
    have h2 : u.toList ≠ ssoclient.eventOIDCTokens.toList :=
      fun hh => hu2 (String.ext hh)
    have h3 : u.toList ≠ ssoclient.eventError.toList :=
      fun hh => hu3 (String.ext hh)
    rw [LoginWithOIDCProxy_snd, splitEvents_sseWire _ hall, hsplit,
      consume_client_authuri pt pre hpre,
      consume_client_unknown_event pt u.toList d.toList hu hd h1 h2 h3]
  · unfold ssoclient.LoginWithOIDCProxy
    rw [splitEvents_sseWire pre hpre1]
    have hskip := consume_client_authuri pt pre hpre [] ⟨"", "", 0⟩
    rw [List.append_nil] at hskip
    rw [hskip]
    rfl

theorem C5_client_error_cases_witness :
    (ssoclient.LoginWithOIDCProxy (fun _ => none)
        (sseWire [("auth-uri", "http://x"), ("error", "denied")])).2
      = some (ssoclient.ConsumeErr.handlerErr
          (ssoclient.ClientEventErr.receivedError "denied".toList)) :=
  (C5_client_error_cases (fun _ => none) [("auth-uri", "http://x")] [] "denied" "weird"
      (by decide) (by decide) (by decide) (by decide)
      (by decide) (by decide) (by decide)).1
